import Mathlib

/-!
Verification development for the hermes codec core: the UTF-16 → UTF-8
transcoders and the `isAllASCII` classifier (pinned by the unit tests in
src/unittests/Support/UnicodeTest.cpp), and the DataView constructor,
accessors and typed get/set entry points (src/lib/VM/JSLib/DataView.cpp).
-/

namespace Hermes

/-! ## UTF-16 → UTF-8 transcoders -/

/-- A UTF-16 leading (high) surrogate code unit: in `[0xD800, 0xDBFF]`. -/
def isLead (u : Nat) : Bool := decide (0xD800 ≤ u ∧ u ≤ 0xDBFF)

/-- A UTF-16 trailing (low) surrogate code unit: in `[0xDC00, 0xDFFF]`. -/
def isTrail (u : Nat) : Bool := decide (0xDC00 ≤ u ∧ u ≤ 0xDFFF)

/-- Standard UTF-8 encoding of a code point as 1 to 4 bytes
(surrogate values are encoded like any other 3-byte code point,
which is what the exact-mode transcoder relies on). -/
def encodeScalar (cp : Nat) : List Nat :=
  if cp ≤ 0x7F then [cp]
  else if cp ≤ 0x7FF then [0xC0 + cp / 0x40, 0x80 + cp % 0x40]
  else if cp ≤ 0xFFFF then
    [0xE0 + cp / 0x1000, 0x80 + cp / 0x40 % 0x40, 0x80 + cp % 0x40]
  else
    [0xF0 + cp / 0x40000, 0x80 + cp / 0x1000 % 0x40, 0x80 + cp / 0x40 % 0x40,
      0x80 + cp % 0x40]

/-- Scalar value obtained by combining a valid surrogate pair:
`0x10000 + (lead - 0xD800) * 0x400 + (trail - 0xDC00)`. -/
def pairScalar (lead trail : Nat) : Nat :=
  0x10000 + (lead - 0xD800) * 0x400 + (trail - 0xDC00)

/-- Modelled from the spec: the implementation of
`convertUTF16ToUTF8WithSingleSurrogates` (hermes/Support/UTF8) is not under
src/; only its unit tests are (src/unittests/Support/UnicodeTest.cpp,
UTF16ToUTF8StringWithSingleSurrogates).  Those tests pin its behavior: every
16-bit code unit — surrogate or not, paired or not — is encoded independently
as a standalone code point (the valid pair `[0xD83D, 0xDE39]` produces the six
bytes `ED A0 BD ED B8 B9`, not the combined 4-byte form).  Where the spec
prose (§4.7, exact mode combining pairs) conflicts with those in-src tests,
the tests are followed, being code under src/. -/
def convertUTF16ToUTF8WithSingleSurrogates : List Nat → List Nat
  | [] => []
  | u :: rest => encodeScalar u ++ convertUTF16ToUTF8WithSingleSurrogates rest

/-- Replacement-mode output for a single unit that is not the start of a
valid surrogate pair: a lone surrogate becomes U+FFFD (`EF BF BD`), anything
else is encoded normally. -/
def replOne (u : Nat) : List Nat :=
  if isLead u || isTrail u then [0xEF, 0xBF, 0xBD] else encodeScalar u

/-- Modelled from the spec: the implementation of
`convertUTF16ToUTF8WithReplacements` (hermes/Support/UTF8) is not under src/;
modelled from spec §4.7 (single pass with one-unit lookahead: a valid
lead+trail pair is combined into one 4-byte scalar encoding consuming both
units; a lone surrogate is replaced by U+FFFD consuming one unit; any other
unit is encoded normally), and checked against the unit tests in
src/unittests/Support/UnicodeTest.cpp (UTF16ToUTF8StringWithReplacements). -/
def convertUTF16ToUTF8WithReplacements : List Nat → List Nat
  | [] => []
  | [u] => replOne u
  | u :: t :: rest =>
    if isLead u && isTrail t then
      encodeScalar (pairScalar u t) ++ convertUTF16ToUTF8WithReplacements rest
    else
      replOne u ++ convertUTF16ToUTF8WithReplacements (t :: rest)

/-- A well-formed code-unit sequence: every surrogate unit is part of an
adjacent valid lead-trail pair (no lone surrogate). -/
def wellFormed : List Nat → Bool
  | [] => true
  | [u] => !isLead u && !isTrail u
  | u :: t :: rest =>
    if isLead u then isTrail t && wellFormed rest
    else !isTrail u && wellFormed (t :: rest)

/-- A sequence containing no surrogate unit at all. -/
def surrogateFree (l : List Nat) : Bool :=
  l.all fun u => !isLead u && !isTrail u

/-! ## isAllASCII -/

/-- Byte-by-byte reference scan: every byte of the range is `≤ 0x7F`. -/
def naiveAllASCII (l : List Nat) : Bool := l.all fun b => decide (b ≤ 0x7F)

/-- Modelled from the spec: the implementation of `isAllASCII`
(hermes/Support/UTF8) is not under src/; only its unit tests are
(src/unittests/Support/UnicodeTest.cpp, IsAllASCIITest).  Spec §4.8 describes
a predicate with an internal wide-chunk fast path that must be bit-identical
to a byte-by-byte scan; the fast path is modelled as an 8-byte-at-a-time OR
accumulation tested against `0x7F`, with a byte-wise tail for the last
(under 8 byte) fragment. -/
def isAllASCII : List Nat → Bool
  | b0 :: b1 :: b2 :: b3 :: b4 :: b5 :: b6 :: b7 :: rest =>
    decide ((b0 ||| b1 ||| b2 ||| b3 ||| b4 ||| b5 ||| b6 ||| b7) ≤ 0x7F) &&
      isAllASCII rest
  | l => l.all fun b => decide (b ≤ 0x7F)

/-! ## DataView -/

/-- Modelled from the spec: the ArrayBuffer object (JSArrayBuffer) is not
under src/.  Spec §3: a Buffer owns a contiguous byte region, exposes its
current byte length (`size` below, as read by `buffer->size()` in
DataView.cpp) and an `attached` flag that transitions true → false exactly
once; detachment invalidates the backing storage. -/
structure Buffer where
  data : List Nat
  attached : Bool
  deriving Repr, DecidableEq

/-- Current byte length of the buffer (`JSArrayBuffer::size()`). -/
def Buffer.size (b : Buffer) : Nat := b.data.length

/-- Modelled from the spec: detaching a Buffer permanently invalidates its
backing storage (spec §3, §5); the detached buffer holds no bytes, so its
observable byte length is 0. -/
def Buffer.detach (_ : Buffer) : Buffer := ⟨[], false⟩

/-- Modelled from the spec: the result of `toIndex` on an offset-like
argument (spec §4.1).  Coercing a non-plain-number argument may run arbitrary
re-entrant code; `effect` is the mutation that code performs on the buffer
being operated on, and it runs to completion before the result is produced.
`result = none` models a coercion that terminates with an IndexRangeError
(propagated unchanged by the caller). -/
structure CoArg where
  effect : Buffer → Buffer
  result : Option Nat

/-- An argument whose coercion is a plain number: no side effect. -/
def CoArg.pure (n : Nat) : CoArg := ⟨fun b => b, some n⟩

/-- Modelled from the spec: the result of numerically coercing the value
argument of a `set` call (`toNumber_RJS`); like `CoArg` it carries the
re-entrant side effect and an optional result (none = coercion threw). -/
structure CoVal where
  effect : Buffer → Buffer
  result : Option Int

/-- A value argument that is a plain number: no side effect. -/
def CoVal.pure (v : Int) : CoVal := ⟨fun b => b, some v⟩

/-- Modelled from the spec: a JSDataView stores a non-owning reference to its
buffer (`bufferRef`, an identifier fixed at construction) and an immutable
`byteOffset` and `byteLength` fixed at construction (spec §3). -/
structure JSDataView where
  byteOffset : Nat
  byteLength : Nat
  bufferRef : Nat
  deriving Repr, DecidableEq

/-- The typed errors raised by DataView.cpp, one constructor per raise site:
`notConstructorCall` and `notArrayBuffer` are the two TypeErrors of the
constructor; `receiverTypeError` is the TypeError an entry point raises on a
non-DataView receiver (carrying the entry point it names);
`propagatedException` is an exception propagated out of `toIndex` or
`toNumber_RJS`; `offsetRangeError` and `offsetLengthRangeError` are the two
RangeErrors of the constructor; `detachedBufferError` and `outOfBoundsError`
are the TypeError / RangeError of get and set (carrying the entry point). -/
inductive DVError
  | notConstructorCall
  | notArrayBuffer
  | receiverTypeError (entryPoint : String)
  | propagatedException
  | offsetRangeError
  | offsetLengthRangeError
  | detachedBufferError (entryPoint : String)
  | outOfBoundsError (entryPoint : String)
  deriving Repr, DecidableEq

/-- The `sizeof(T)` bytes of buffer data starting at `start` (reads past the
end of the data yield 0; the construction invariant keeps real reads in
range). -/
def readBytes (data : List Nat) (start len : Nat) : List Nat :=
  (List.range len).map fun i => data.getD (start + i) 0

/-- Unsigned little-endian interpretation of a byte list. -/
def decodeUintLE : List Nat → Nat
  | [] => 0
  | b :: bs => b + 256 * decodeUintLE bs

/-- Modelled from the spec: NumericCodec decode (spec §4.2) for the unsigned
integer family — reorders bytes per `littleEndian` then reinterprets. -/
def decodeUint (bytes : List Nat) (littleEndian : Bool) : Nat :=
  decodeUintLE (if littleEndian then bytes else bytes.reverse)

/-- Little-endian byte encoding of `v` truncated to `size` bytes. -/
def encodeLE : Nat → Nat → List Nat
  | 0, _ => []
  | n + 1, v => v % 256 :: encodeLE n (v / 256)

/-- Modelled from the spec: NumericCodec encode (spec §4.2) — the byte image
of `v` in the chosen byte order. -/
def encodeBytes (size : Nat) (v : Nat) (littleEndian : Bool) : List Nat :=
  if littleEndian then encodeLE size v else (encodeLE size v).reverse

/-- Modelled from the spec: `JSTypedArray<T,C>::toDestType` truncates/wraps
the coerced number to T with two's-complement wraparound (spec §4.2); the
wrapped value is represented by its non-negative residue modulo `2^(8*size)`. -/
def toDestType (size : Nat) (v : Int) : Nat := (v % ((2 : Int) ^ (8 * size))).toNat

/-- Overwrite `data[start .. start + bytes.length)` with `bytes`; positions
outside the data are dropped, all other positions are untouched. -/
def writeBytes : List Nat → Nat → List Nat → List Nat
  | [], _, _ => []
  | d :: rest, Nat.succ s, bs => d :: writeBytes rest s bs
  | _ :: rest, 0, b :: bs => b :: writeBytes rest 0 bs
  | l, 0, [] => l

/-- DataView.cpp, `dataViewPrototypeBuffer` (ES6 24.2.4.1): receiver check,
then return the stored buffer reference.  The buffer state is taken as an
argument only to exhibit that the accessor never consults it. -/
def dataViewPrototypeBuffer (self : Option JSDataView) (_b : Buffer) :
    Except DVError Nat :=
  match self with
  | none => .error (.receiverTypeError "DataView.prototype.buffer")
  | some self => .ok self.bufferRef

/-- DataView.cpp, `dataViewPrototypeByteLength` (ES6 24.2.4.2): receiver
check, then return the stored byte length. -/
def dataViewPrototypeByteLength (self : Option JSDataView) (_b : Buffer) :
    Except DVError Nat :=
  match self with
  | none => .error (.receiverTypeError "DataView.prototype.byteLength")
  | some self => .ok self.byteLength

/-- DataView.cpp, `dataViewPrototypeByteOffset` (ES6 24.2.4.3): receiver
check, then return the stored byte offset. -/
def dataViewPrototypeByteOffset (self : Option JSDataView) (_b : Buffer) :
    Except DVError Nat :=
  match self with
  | none => .error (.receiverTypeError "DataView.prototype.byteOffset")
  | some self => .ok self.byteOffset

/-- DataView.cpp, `dataViewPrototypeGet<T>`: receiver check; `toIndex` on the
offset argument (side effects run here); `toBoolean` on the endianness
argument (pure, the `littleEndian` parameter); re-check `attached`; bounds
check `byteOffset + sizeof(T) > self->byteLength()`; then read and decode.
Returns the buffer as mutated by the coercion together with the outcome. -/
def dataViewPrototypeGet (sizeT : Nat) (self : Option JSDataView)
    (offsetArg : CoArg) (littleEndian : Bool) (b0 : Buffer) :
    Buffer × Except DVError Nat :=
  match self with
  | none => (b0, .error (.receiverTypeError "get"))
  | some self =>
    let b1 := offsetArg.effect b0
    match offsetArg.result with
    | none => (b1, .error .propagatedException)
    | some byteOffset =>
      if !b1.attached then (b1, .error (.detachedBufferError "get"))
      else if byteOffset + sizeT > self.byteLength then
        (b1, .error (.outOfBoundsError "get"))
      else
        (b1, .ok (decodeUint
          (readBytes b1.data (self.byteOffset + byteOffset) sizeT) littleEndian))

/-- DataView.cpp, `dataViewPrototypeSet<T>`: receiver check; `toIndex` on the
offset argument; `toBoolean` on the endianness argument (pure); `toNumber_RJS`
on the value argument (side effects run here); re-check `attached`;
`toDestType` truncation; bounds check; then encode and write the bytes.
Returns the final buffer together with the outcome. -/
def dataViewPrototypeSet (sizeT : Nat) (self : Option JSDataView)
    (offsetArg : CoArg) (valueArg : CoVal) (littleEndian : Bool) (b0 : Buffer) :
    Buffer × Except DVError Unit :=
  match self with
  | none => (b0, .error (.receiverTypeError "set"))
  | some self =>
    let b1 := offsetArg.effect b0
    match offsetArg.result with
    | none => (b1, .error .propagatedException)
    | some byteOffset =>
      let b2 := valueArg.effect b1
      match valueArg.result with
      | none => (b2, .error .propagatedException)
      | some v =>
        if !b2.attached then (b2, .error (.detachedBufferError "set"))
        else
          let value := toDestType sizeT v
          if byteOffset + sizeT > self.byteLength then
            (b2, .error (.outOfBoundsError "set"))
          else
            (⟨writeBytes b2.data (self.byteOffset + byteOffset)
                (encodeBytes sizeT value littleEndian), b2.attached⟩, .ok ())

/-- DataView.cpp, `dataViewConstructor` (ES 2018 24.3.2.1): new-target check;
buffer-type check; `toIndex` on the offset argument; capture
`bufferByteLength = buffer->size()`; first bounds check against it; if the
length argument is undefined, the view length is the captured remainder,
otherwise `toIndex` on the length argument and the second bounds check —
against the *captured* `bufferByteLength`, not a fresh read.  `bufferId` is
the identity of the buffer argument, stored on the view. -/
def dataViewConstructor (isConstructorCall : Bool) (bufferIsArrayBuffer : Bool)
    (bufferId : Nat) (offsetArg : CoArg) (lengthArg : Option CoArg)
    (b0 : Buffer) : Buffer × Except DVError JSDataView :=
  if !isConstructorCall then (b0, .error .notConstructorCall)
  else if !bufferIsArrayBuffer then (b0, .error .notArrayBuffer)
  else
    let b1 := offsetArg.effect b0
    match offsetArg.result with
    | none => (b1, .error .propagatedException)
    | some offset =>
      let bufferByteLength := b1.size
      if offset > bufferByteLength then (b1, .error .offsetRangeError)
      else
        match lengthArg with
        | none => (b1, .ok ⟨offset, bufferByteLength - offset, bufferId⟩)
        | some la =>
          let b2 := la.effect b1
          match la.result with
          | none => (b2, .error .propagatedException)
          | some viewByteLength =>
            if offset + viewByteLength > bufferByteLength then
              (b2, .error .offsetLengthRangeError)
            else (b2, .ok ⟨offset, viewByteLength, bufferId⟩)

/-- The constructor as the spec's words describe it (spec §4.3: "both bounds
checks are evaluated against the buffer length observed at the time of *that*
check"): identical to `dataViewConstructor` except that the second bounds
check reads the buffer length afresh, after the length argument's coercion.
Declared only to be compared with the code's behavior. -/
def dataViewConstructorFreshCheck (isConstructorCall : Bool)
    (bufferIsArrayBuffer : Bool) (bufferId : Nat) (offsetArg : CoArg)
    (lengthArg : Option CoArg) (b0 : Buffer) :
    Buffer × Except DVError JSDataView :=
  if !isConstructorCall then (b0, .error .notConstructorCall)
  else if !bufferIsArrayBuffer then (b0, .error .notArrayBuffer)
  else
    let b1 := offsetArg.effect b0
    match offsetArg.result with
    | none => (b1, .error .propagatedException)
    | some offset =>
      if offset > b1.size then (b1, .error .offsetRangeError)
      else
        match lengthArg with
        | none => (b1, .ok ⟨offset, b1.size - offset, bufferId⟩)
        | some la =>
          let b2 := la.effect b1
          match la.result with
          | none => (b2, .error .propagatedException)
          | some viewByteLength =>
            if offset + viewByteLength > b2.size then
              (b2, .error .offsetLengthRangeError)
            else (b2, .ok ⟨offset, viewByteLength, bufferId⟩)

/-! ## Helper lemmas -/

/-- Induction on a list two different tails at a time: to prove `P l` it
suffices to handle `[]`, singletons, and `u :: t :: rest` given both
`P rest` and `P (t :: rest)` — the shape of the transcoder recursions. -/
theorem twoStepInduction {P : List Nat → Prop} (h0 : P []) (h1 : ∀ u, P [u])
    (h2 : ∀ u t rest, P rest → P (t :: rest) → P (u :: t :: rest)) :
    ∀ l, P l := by
  have key : ∀ n l, List.length l ≤ n → P l := by
    intro n
    induction n with
    | zero =>
      intro l hl
      match l with
      | [] => exact h0
      | x :: xs => simp at hl
    | succ n ih =>
      intro l hl
      match l with
      | [] => exact h0
      | [u] => exact h1 u
      | u :: t :: rest =>
        have hlen : (u :: t :: rest).length = rest.length + 2 := by simp
        exact h2 u t rest (ih rest (by omega))
          (ih (t :: rest) (by simp at hl ⊢; omega))
  intro l
  exact key l.length l le_rfl

theorem isTrail_not_isLead {u : Nat} (h : isTrail u = true) : isLead u = false := by
  simp [isLead, isTrail] at h ⊢
  omega

theorem surrogateFree_cons {u : Nat} {rest : List Nat}
    (h : surrogateFree (u :: rest) = true) :
    isLead u = false ∧ isTrail u = false ∧ surrogateFree rest = true := by
  simp [surrogateFree] at h ⊢
  exact ⟨h.1.1, h.1.2, fun x hx => (h.2 x hx)⟩

theorem encodeScalar_pairScalar_length (u t : Nat) :
    (encodeScalar (pairScalar u t)).length = 4 := by
  have h : 0xFFFF < pairScalar u t := by unfold pairScalar; omega
  unfold encodeScalar
  rw [if_neg (by omega), if_neg (by omega), if_neg (by omega)]
  rfl

theorem replacements_nonSurrogate {u : Nat} (rest : List Nat)
    (hl : isLead u = false) (ht : isTrail u = false) :
    convertUTF16ToUTF8WithReplacements (u :: rest)
      = encodeScalar u ++ convertUTF16ToUTF8WithReplacements rest := by
  match rest with
  | [] => simp [convertUTF16ToUTF8WithReplacements, replOne, hl, ht]
  | t :: rest2 => simp [convertUTF16ToUTF8WithReplacements, replOne, hl, ht]

theorem exact_cons (u : Nat) (rest : List Nat) :
    convertUTF16ToUTF8WithSingleSurrogates (u :: rest)
      = encodeScalar u ++ convertUTF16ToUTF8WithSingleSurrogates rest := rfl

/-! ## Claim theorems -/

/-- C1 counterexample: the claim says exact mode maps `[0xD83D, 0xDE39]` to
the four bytes `[0xF0, 0x9F, 0x98, 0xB9]`; the unit test
(UnicodeTest.cpp:38-39) fixes the output to the six bytes
`[0xED, 0xA0, 0xBD, 0xED, 0xB8, 0xB9]` instead. -/
theorem exactMode_validPair_claim_false :
    ¬ (convertUTF16ToUTF8WithSingleSurrogates [0xD83D, 0xDE39]
        = [0xF0, 0x9F, 0x98, 0xB9]) := by decide

/-- C1 (amended): exact mode maps `[0xD83D, 0xDE39]` to the six bytes
`[0xED, 0xA0, 0xBD, 0xED, 0xB8, 0xB9]` (each half of the valid pair encoded
independently), maps `[0xD83D]` alone to `[0xED, 0xA0, 0xBD]`, and maps
`['a', 0xD83D, 'b']` to `['a', 0xED, 0xA0, 0xBD, 'b']`. -/
theorem exactMode_testVectors :
    convertUTF16ToUTF8WithSingleSurrogates [0xD83D, 0xDE39]
        = [0xED, 0xA0, 0xBD, 0xED, 0xB8, 0xB9] ∧
    convertUTF16ToUTF8WithSingleSurrogates [0xD83D] = [0xED, 0xA0, 0xBD] ∧
    convertUTF16ToUTF8WithSingleSurrogates [97, 0xD83D, 98]
        = [97, 0xED, 0xA0, 0xBD, 98] := by decide

/-- C2 counterexample: `[0xD83D, 0xDE39]` is well-formed (a valid lead-trail
pair), yet the exact-mode and replacement-mode transcoders produce different
byte sequences on it (6 bytes vs 4 bytes), refuting the claim that they agree
on every well-formed input. -/
theorem wellFormed_agreement_fails :
    wellFormed [0xD83D, 0xDE39] = true ∧
    ¬ (convertUTF16ToUTF8WithSingleSurrogates [0xD83D, 0xDE39]
        = convertUTF16ToUTF8WithReplacements [0xD83D, 0xDE39]) := by decide

/-- C2 (amended): the two transcoders agree on every surrogate-free sequence;
on a valid lead-trail pair the replacement-mode transcoder emits the 4-byte
encoding of the combined scalar `0x10000 + (lead-0xD800)*0x400 +
(trail-0xDC00)`, while the exact-mode transcoder encodes the two halves
independently (two 3-byte sequences). -/
theorem transcoders_agree_surrogateFree :
    (∀ l, surrogateFree l = true →
      convertUTF16ToUTF8WithSingleSurrogates l
        = convertUTF16ToUTF8WithReplacements l) ∧
    (∀ u t rest, isLead u = true → isTrail t = true →
      convertUTF16ToUTF8WithReplacements (u :: t :: rest)
          = encodeScalar (pairScalar u t)
              ++ convertUTF16ToUTF8WithReplacements rest ∧
      (encodeScalar (pairScalar u t)).length = 4 ∧
      convertUTF16ToUTF8WithSingleSurrogates (u :: t :: rest)
          = encodeScalar u ++ encodeScalar t
              ++ convertUTF16ToUTF8WithSingleSurrogates rest) := by
  constructor
  · intro l
    induction l using twoStepInduction with
    | h0 => intro _; rfl
    | h1 u =>
      intro h
      obtain ⟨hl, ht, -⟩ := surrogateFree_cons h
      simp [convertUTF16ToUTF8WithSingleSurrogates,
        convertUTF16ToUTF8WithReplacements, replOne, hl, ht]
    | h2 u t rest ih1 ih2 =>
      intro h
      obtain ⟨hl, ht, hrest⟩ := surrogateFree_cons h
      rw [exact_cons, replacements_nonSurrogate (t :: rest) hl ht, ih2 hrest]
  · intro u t rest hu ht
    refine ⟨?_, encodeScalar_pairScalar_length u t, ?_⟩
    · simp [convertUTF16ToUTF8WithReplacements, hu, ht]
    · rw [exact_cons, exact_cons, List.append_assoc]

/-- C2 witness: the agreement theorem applied to the concrete surrogate-free
input `[101, 0x0301, 0x2603]`, and its pair clause applied to the concrete
valid pair `0xD83D`, `0xDE39`. -/
theorem transcoders_agree_surrogateFree_witness :
    convertUTF16ToUTF8WithSingleSurrogates [101, 0x0301, 0x2603]
      = convertUTF16ToUTF8WithReplacements [101, 0x0301, 0x2603] ∧
    convertUTF16ToUTF8WithReplacements [0xD83D, 0xDE39]
      = encodeScalar (pairScalar 0xD83D 0xDE39)
          ++ convertUTF16ToUTF8WithReplacements [] :=
  ⟨transcoders_agree_surrogateFree.1 [101, 0x0301, 0x2603] (by decide),
    (transcoders_agree_surrogateFree.2 0xD83D 0xDE39 [] (by decide)
      (by decide)).1⟩

/-- C5: the replacement-mode transcoder emits the fixed three bytes
`EF BF BD` for each lone surrogate, consuming exactly one unit (a trailing
surrogate at the head is always lone; a leading surrogate is lone when not
followed by a trailing surrogate, including at the end of input); unpaired
leads and trails are each replaced independently; non-surrogate units and
valid pairs are encoded as in the well-formed cases; the unit-test vectors
(UnicodeTest.cpp:71-80) hold. -/
theorem replacementMode_spec :
    (∀ u rest, isLead u = false → isTrail u = false →
      convertUTF16ToUTF8WithReplacements (u :: rest)
        = encodeScalar u ++ convertUTF16ToUTF8WithReplacements rest) ∧
    (∀ u t rest, isLead u = true → isTrail t = true →
      convertUTF16ToUTF8WithReplacements (u :: t :: rest)
        = encodeScalar (pairScalar u t)
            ++ convertUTF16ToUTF8WithReplacements rest) ∧
    (∀ u rest, isTrail u = true →
      convertUTF16ToUTF8WithReplacements (u :: rest)
        = [0xEF, 0xBF, 0xBD] ++ convertUTF16ToUTF8WithReplacements rest) ∧
    (∀ u t rest, isLead u = true → isTrail t = false →
      convertUTF16ToUTF8WithReplacements (u :: t :: rest)
        = [0xEF, 0xBF, 0xBD]
            ++ convertUTF16ToUTF8WithReplacements (t :: rest)) ∧
    (∀ u, isLead u = true →
      convertUTF16ToUTF8WithReplacements [u] = [0xEF, 0xBF, 0xBD]) ∧
    convertUTF16ToUTF8WithReplacements [0xD83D, 0xDE39]
        = [0xF0, 0x9F, 0x98, 0xB9] ∧
    convertUTF16ToUTF8WithReplacements [0xD83D] = [0xEF, 0xBF, 0xBD] ∧
    convertUTF16ToUTF8WithReplacements [97, 0xD83D, 98]
        = [97, 0xEF, 0xBF, 0xBD, 98] := by
  refine ⟨?_, ?_, ?_, ?_, ?_, by decide, by decide, by decide⟩
  · intro u rest hl ht
    exact replacements_nonSurrogate rest hl ht
  · intro u t rest hu ht
    simp [convertUTF16ToUTF8WithReplacements, hu, ht]
  · intro u rest hu
    have hl := isTrail_not_isLead hu
    match rest with
    | [] => simp [convertUTF16ToUTF8WithReplacements, replOne, hu]
    | t :: rest2 => simp [convertUTF16ToUTF8WithReplacements, replOne, hl, hu]
  · intro u t rest hu ht
    simp [convertUTF16ToUTF8WithReplacements, replOne, hu, ht]
  · intro u hu
    simp [convertUTF16ToUTF8WithReplacements, replOne, hu]

/-- C5 witness: two adjacent lone surrogates (a trail then a lead) are each
independently replaced, never merged — the theorem applied at `0xDC00` and
`0xD800`. -/
theorem replacementMode_spec_witness :
    convertUTF16ToUTF8WithReplacements [0xDC00, 0xD800]
        = [0xEF, 0xBF, 0xBD] ++ convertUTF16ToUTF8WithReplacements [0xD800] ∧
    convertUTF16ToUTF8WithReplacements [0xD800] = [0xEF, 0xBF, 0xBD] :=
  ⟨replacementMode_spec.2.2.1 0xDC00 [0xD800] (by decide),
    replacementMode_spec.2.2.2.2.1 0xD800 (by decide)⟩

theorem lt_pow_of_or_lt {a b n : Nat} (h : a ||| b < 2 ^ n) : a < 2 ^ n := by
  apply Nat.lt_pow_two_of_testBit
  intro i hi
  have hbit : (a ||| b).testBit i = false := by
    apply Nat.testBit_lt_two_pow
    calc a ||| b < 2 ^ n := h
    _ ≤ 2 ^ i := Nat.pow_le_pow_right (by omega) hi
  simp [Nat.testBit_or] at hbit
  exact hbit.1

theorem or_le_127 (a b : Nat) : (a ||| b ≤ 127) ↔ (a ≤ 127 ∧ b ≤ 127) := by
  constructor
  · intro h
    have h' : a ||| b < 2 ^ 7 := by omega
    have ha := lt_pow_of_or_lt h'
    have hb := lt_pow_of_or_lt (Nat.or_comm a b ▸ h')
    omega
  · intro ⟨ha, hb⟩
    have := Nat.or_lt_two_pow (x := a) (y := b) (n := 7) (by omega) (by omega)
    omega

theorem decide_or_le (a b : Nat) :
    decide ((a ||| b) ≤ 127) = (decide (a ≤ 127) && decide (b ≤ 127)) := by
  rw [Bool.eq_iff_iff]
  simp [or_le_127]

/-- The wide-chunk classifier agrees with the byte-by-byte scan on every
byte list. -/
theorem isAllASCII_eq_naive : ∀ l : List Nat, isAllASCII l = naiveAllASCII l
  | [] => rfl
  | [_] => rfl
  | [_, _] => rfl
  | [_, _, _] => rfl
  | [_, _, _, _] => rfl
  | [_, _, _, _, _] => rfl
  | [_, _, _, _, _, _] => rfl
  | [_, _, _, _, _, _, _] => rfl
  | b0 :: b1 :: b2 :: b3 :: b4 :: b5 :: b6 :: b7 :: rest => by
    have ih := isAllASCII_eq_naive rest
    simp only [isAllASCII, ih, naiveAllASCII, List.all_cons, decide_or_le,
      Bool.and_assoc]

/-- C8: `isAllASCII` is true iff every byte of the range is `≤ 0x7F`, true on
the empty range, and on every sub-range (every start/length combination,
chunk-straddling or not) its result equals the naive byte-by-byte scan. -/
theorem isAllASCII_spec :
    (∀ l : List Nat, isAllASCII l = true ↔ ∀ b ∈ l, b ≤ 0x7F) ∧
    isAllASCII [] = true ∧
    (∀ (l : List Nat) (s n : Nat),
      isAllASCII ((l.drop s).take n) = naiveAllASCII ((l.drop s).take n)) := by
  refine ⟨?_, rfl, fun l s n => isAllASCII_eq_naive _⟩
  intro l
  rw [isAllASCII_eq_naive, naiveAllASCII]
  simp

/-- C8 witness: the classifier evaluated through the spec theorem on the unit
test vectors `[32, 23, 18]` (all ASCII) and `[234, 1, 0]` (not ASCII). -/
theorem isAllASCII_spec_witness :
    isAllASCII [32, 23, 18] = true ∧ isAllASCII [234, 1, 0] = false := by
  refine ⟨(isAllASCII_spec.1 [32, 23, 18]).mpr (by decide), ?_⟩
  cases h : isAllASCII [234, 1, 0] with
  | false => rfl
  | true =>
    exact absurd ((isAllASCII_spec.1 [234, 1, 0]).mp h 234 (by decide))
      (by decide)

theorem encodeLE_length : ∀ n v : Nat, (encodeLE n v).length = n
  | 0, _ => rfl
  | n + 1, v => by simp [encodeLE, encodeLE_length n (v / 256)]

theorem encodeBytes_length (size v : Nat) (le : Bool) :
    (encodeBytes size v le).length = size := by
  unfold encodeBytes
  cases le <;> simp [encodeLE_length]

theorem writeBytes_length : ∀ (d : List Nat) (s : Nat) (bs : List Nat),
    (writeBytes d s bs).length = d.length
  | [], _, _ => by simp [writeBytes]
  | _ :: rest, s + 1, bs => by simp [writeBytes, writeBytes_length rest s bs]
  | _ :: rest, 0, _ :: bs => by simp [writeBytes, writeBytes_length rest 0 bs]
  | _ :: _, 0, [] => rfl

theorem writeBytes_getD_outside :
    ∀ (d : List Nat) (s : Nat) (bs : List Nat) (i : Nat),
      i < s ∨ s + bs.length ≤ i →
      (writeBytes d s bs).getD i 0 = d.getD i 0
  | [], _, _, _, _ => by simp [writeBytes]
  | _ :: rest, s + 1, bs, i, h => by
    match i with
    | 0 => simp [writeBytes]
    | i + 1 =>
      simp only [writeBytes, List.getD_cons_succ]
      exact writeBytes_getD_outside rest s bs i (by omega)
  | _ :: rest, 0, b :: bs, i, h => by
    match i with
    | 0 => simp at h
    | i + 1 =>
      simp only [writeBytes, List.getD_cons_succ]
      exact writeBytes_getD_outside rest 0 bs i (by simp at h; omega)
  | _ :: _, 0, [], i, h => by simp [writeBytes]

theorem writeBytes_getD_inside :
    ∀ (d : List Nat) (s : Nat) (bs : List Nat) (j : Nat),
      j < bs.length → s + j < d.length →
      (writeBytes d s bs).getD (s + j) 0 = bs.getD j 0
  | [], _, _, _, _, hd => by simp at hd
  | _ :: rest, s + 1, bs, j, hj, hd => by
    have harith : s + 1 + j = (s + j) + 1 := by omega
    rw [harith]
    simp only [writeBytes, List.getD_cons_succ]
    exact writeBytes_getD_inside rest s bs j hj (by simp at hd; omega)
  | _ :: rest, 0, b :: bs, j, hj, hd => by
    match j with
    | 0 => simp [writeBytes]
    | j + 1 =>
      have harith : 0 + (j + 1) = j + 1 := by omega
      rw [harith]
      simp only [writeBytes, List.getD_cons_succ]
      have := writeBytes_getD_inside rest 0 bs j (by simp at hj; omega)
        (by simp at hd; omega)
      simpa using this
  | _ :: _, 0, [], j, hj, _ => by simp at hj

/-- C3 counterexample: buffer of 16 bytes, offset 0, explicit length 8 whose
coercion detaches the buffer (observed byte length drops to 0).  The code
(DataView.cpp:143,165) checks `0 + 8 > 16` against the length captured before
the length coercion and succeeds; checking against the length observed at the
time of the check (`0 + 8 > 0`), as the claim states, would raise the
RangeError. -/
theorem constructor_staleLength_counterexample :
    (dataViewConstructor true true 0 (CoArg.pure 0)
        (some ⟨Buffer.detach, some 8⟩) ⟨List.replicate 16 0, true⟩).2
      = .ok ⟨0, 8, 0⟩ ∧
    (dataViewConstructorFreshCheck true true 0 (CoArg.pure 0)
        (some ⟨Buffer.detach, some 8⟩) ⟨List.replicate 16 0, true⟩).2
      = .error .offsetLengthRangeError := by
  exact ⟨rfl, rfl⟩

/-- C3 (amended): in DataView construction with an explicit length argument,
the bounds check `offset + viewLength > buffer.byteLength` is evaluated
against the buffer length captured after the offset coercion and *before* the
length coercion; this agrees with a check against the freshly observed length
exactly when the length argument's coercion leaves the buffer's byte length
unchanged. -/
theorem constructor_capturedLength_agreement (icc iab : Bool) (bid : Nat)
    (offArg la : CoArg) (b0 : Buffer)
    (hsize : (la.effect (offArg.effect b0)).size = (offArg.effect b0).size) :
    dataViewConstructor icc iab bid offArg (some la) b0
      = dataViewConstructorFreshCheck icc iab bid offArg (some la) b0 := by
  simp only [dataViewConstructor, dataViewConstructorFreshCheck, hsize]

/-- C3 witness: the agreement theorem applied to a construction whose length
coercion has no side effect. -/
theorem constructor_capturedLength_agreement_witness :
    dataViewConstructor true true 0 (CoArg.pure 0) (some (CoArg.pure 4))
        ⟨List.replicate 8 0, true⟩
      = dataViewConstructorFreshCheck true true 0 (CoArg.pure 0)
          (some (CoArg.pure 4)) ⟨List.replicate 8 0, true⟩ :=
  constructor_capturedLength_agreement true true 0 (CoArg.pure 0)
    (CoArg.pure 4) ⟨List.replicate 8 0, true⟩ rfl

/-- C4: for get and set, after all argument coercions have run (offset
coercion for get; offset and value coercion for set — endianness coercion is
pure), a detached buffer makes the operation fail with the detached-buffer
TypeError, and the returned buffer is exactly the buffer produced by the
coercion side effects: no byte is read or written. -/
theorem getSet_detached_after_coercions (sizeT : Nat) (view : JSDataView)
    (offArg : CoArg) (valArg : CoVal) (le : Bool) (b0 : Buffer) (off : Nat)
    (hoff : offArg.result = some off) (v : Int)
    (hval : valArg.result = some v)
    (hdetG : (offArg.effect b0).attached = false)
    (hdetS : (valArg.effect (offArg.effect b0)).attached = false) :
    dataViewPrototypeGet sizeT (some view) offArg le b0
      = (offArg.effect b0, .error (.detachedBufferError "get")) ∧
    dataViewPrototypeSet sizeT (some view) offArg valArg le b0
      = (valArg.effect (offArg.effect b0),
          .error (.detachedBufferError "set")) := by
  constructor
  · simp [dataViewPrototypeGet, hoff, hdetG]
  · simp [dataViewPrototypeSet, hoff, hval, hdetS]

/-- C4 witness: the offset coercion detaches the buffer; get and set with
otherwise-valid arguments fail with the detached-buffer error and leave the
(detached) buffer untouched. -/
theorem getSet_detached_after_coercions_witness :
    dataViewPrototypeGet 4 (some ⟨0, 8, 0⟩) ⟨Buffer.detach, some 0⟩ true
        ⟨List.replicate 8 0, true⟩
      = (⟨[], false⟩, .error (.detachedBufferError "get")) ∧
    dataViewPrototypeSet 4 (some ⟨0, 8, 0⟩) ⟨Buffer.detach, some 0⟩
        ⟨fun b => b, some 1⟩ true ⟨List.replicate 8 0, true⟩
      = (⟨[], false⟩, .error (.detachedBufferError "set")) :=
  getSet_detached_after_coercions 4 ⟨0, 8, 0⟩ ⟨Buffer.detach, some 0⟩
    ⟨fun b => b, some 1⟩ true ⟨List.replicate 8 0, true⟩ 0 rfl 1 rfl rfl rfl

/-- C6: on an attached buffer, get and set at
`localOffset = view.byteLength - sizeof(T)` pass the bounds check and
succeed, while the same operations at `view.byteLength - sizeof(T) + 1` fail
with the out-of-bounds RangeError (and the failing set leaves the buffer
untouched). -/
theorem getSet_bounds_edge (sizeT : Nat) (view : JSDataView) (b : Buffer)
    (le : Bool) (v : Int) (hsz : sizeT ≤ view.byteLength)
    (hatt : b.attached = true) :
    (∃ n, (dataViewPrototypeGet sizeT (some view)
        (CoArg.pure (view.byteLength - sizeT)) le b).2 = .ok n) ∧
    (dataViewPrototypeGet sizeT (some view)
        (CoArg.pure (view.byteLength - sizeT + 1)) le b).2
      = .error (.outOfBoundsError "get") ∧
    (dataViewPrototypeSet sizeT (some view)
        (CoArg.pure (view.byteLength - sizeT)) (CoVal.pure v) le b).2
      = .ok () ∧
    (dataViewPrototypeSet sizeT (some view)
        (CoArg.pure (view.byteLength - sizeT + 1)) (CoVal.pure v) le b).2
      = .error (.outOfBoundsError "set") ∧
    (dataViewPrototypeSet sizeT (some view)
        (CoArg.pure (view.byteLength - sizeT + 1)) (CoVal.pure v) le b).1
      = b := by
  have hb1 : ¬ (view.byteLength - sizeT + sizeT > view.byteLength) := by omega
  have hb2 : view.byteLength - sizeT + 1 + sizeT > view.byteLength := by omega
  refine ⟨⟨decodeUint (readBytes b.data
      (view.byteOffset + (view.byteLength - sizeT)) sizeT) le, ?_⟩,
    ?_, ?_, ?_, ?_⟩ <;>
    simp [dataViewPrototypeGet, dataViewPrototypeSet, CoArg.pure, CoVal.pure,
      hatt, hb1, hb2]

/-- C6 witness: the bounds-edge theorem at `sizeof(T) = 4` on a view of
byte length 8 over an attached 8-byte buffer: offset 4 succeeds, offset 5
fails out of bounds. -/
theorem getSet_bounds_edge_witness :
    (∃ n, (dataViewPrototypeGet 4 (some ⟨0, 8, 0⟩) (CoArg.pure 4) true
        ⟨List.replicate 8 0, true⟩).2 = .ok n) ∧
    (dataViewPrototypeGet 4 (some ⟨0, 8, 0⟩) (CoArg.pure 5) true
        ⟨List.replicate 8 0, true⟩).2 = .error (.outOfBoundsError "get") ∧
    (dataViewPrototypeSet 4 (some ⟨0, 8, 0⟩) (CoArg.pure 4) (CoVal.pure 5)
        true ⟨List.replicate 8 0, true⟩).2 = .ok () ∧
    (dataViewPrototypeSet 4 (some ⟨0, 8, 0⟩) (CoArg.pure 5) (CoVal.pure 5)
        true ⟨List.replicate 8 0, true⟩).2
      = .error (.outOfBoundsError "set") ∧
    (dataViewPrototypeSet 4 (some ⟨0, 8, 0⟩) (CoArg.pure 5) (CoVal.pure 5)
        true ⟨List.replicate 8 0, true⟩).1 = ⟨List.replicate 8 0, true⟩ :=
  getSet_bounds_edge 4 ⟨0, 8, 0⟩ ⟨List.replicate 8 0, true⟩ true 5
    (by decide) rfl

/-- C7: every set is atomic with respect to the buffer.  If the operation
fails, the returned buffer is exactly one of: the initial buffer, the buffer
after the offset coercion, or the buffer after the value coercion — the write
never ran.  On success the buffer data is the `writeBytes` image of the
post-coercion data: the encoded block has exactly `sizeof(T)` bytes
(`encodeBytes` length), the whole data keeps its length, every position
outside the written window is untouched and every position inside holds the
corresponding encoded byte — a single full write, no partial write. -/
theorem set_atomic (sizeT : Nat) (self : Option JSDataView) (offArg : CoArg)
    (valArg : CoVal) (le : Bool) (b0 : Buffer) :
    (∀ e, (dataViewPrototypeSet sizeT self offArg valArg le b0).2 = .error e →
      (dataViewPrototypeSet sizeT self offArg valArg le b0).1 = b0 ∨
      (dataViewPrototypeSet sizeT self offArg valArg le b0).1
          = offArg.effect b0 ∨
      (dataViewPrototypeSet sizeT self offArg valArg le b0).1
          = valArg.effect (offArg.effect b0)) ∧
    (∀ view off v, self = some view → offArg.result = some off →
      valArg.result = some v →
      (dataViewPrototypeSet sizeT self offArg valArg le b0).2 = .ok () →
      (dataViewPrototypeSet sizeT self offArg valArg le b0).1.data
        = writeBytes (valArg.effect (offArg.effect b0)).data
            (view.byteOffset + off)
            (encodeBytes sizeT (toDestType sizeT v) le)) ∧
    (∀ size v le2, (encodeBytes size v le2).length = size) ∧
    (∀ d s bs, (writeBytes d s bs).length = d.length) ∧
    (∀ d s bs i, i < s ∨ s + bs.length ≤ i →
      (writeBytes d s bs).getD i 0 = d.getD i 0) ∧
    (∀ d s bs j, j < bs.length → s + j < d.length →
      (writeBytes d s bs).getD (s + j) 0 = bs.getD j 0) := by
  refine ⟨?_, ?_, fun size v le2 => encodeBytes_length size v le2,
    fun d s bs => writeBytes_length d s bs,
    fun d s bs i h => writeBytes_getD_outside d s bs i h,
    fun d s bs j h1 h2 => writeBytes_getD_inside d s bs j h1 h2⟩
  · intro e he
    match self with
    | none => left; rfl
    | some view =>
      cases hoff : offArg.result with
      | none => right; left; simp [dataViewPrototypeSet, hoff]
      | some off =>
        cases hval : valArg.result with
        | none => right; right; simp [dataViewPrototypeSet, hoff, hval]
        | some v =>
          cases hatt : (valArg.effect (offArg.effect b0)).attached with
          | false =>
            right; right; simp [dataViewPrototypeSet, hoff, hval, hatt]
          | true =>
            by_cases hbound : off + sizeT > view.byteLength
            · right; right
              simp [dataViewPrototypeSet, hoff, hval, hatt, hbound]
            · simp [dataViewPrototypeSet, hoff, hval, hatt, hbound] at he
  · intro view off v hself hoff hval hok
    subst hself
    cases hatt : (valArg.effect (offArg.effect b0)).attached with
    | false => simp [dataViewPrototypeSet, hoff, hval, hatt] at hok
    | true =>
      by_cases hbound : off + sizeT > view.byteLength
      · simp [dataViewPrototypeSet, hoff, hval, hatt, hbound] at hok
      · simp [dataViewPrototypeSet, hoff, hval, hatt, hbound]

/-- C7 witness: a set whose value coercion detaches the buffer fails and the
returned buffer is one of the coercion-only states (here: the detached
buffer, with no byte written). -/
theorem set_atomic_witness :
    (dataViewPrototypeSet 4 (some ⟨0, 8, 0⟩) (CoArg.pure 0)
        ⟨Buffer.detach, some 1⟩ true ⟨List.replicate 8 0, true⟩).1
      = ⟨List.replicate 8 0, true⟩ ∨
    (dataViewPrototypeSet 4 (some ⟨0, 8, 0⟩) (CoArg.pure 0)
        ⟨Buffer.detach, some 1⟩ true ⟨List.replicate 8 0, true⟩).1
      = ⟨List.replicate 8 0, true⟩ ∨
    (dataViewPrototypeSet 4 (some ⟨0, 8, 0⟩) (CoArg.pure 0)
        ⟨Buffer.detach, some 1⟩ true ⟨List.replicate 8 0, true⟩).1
      = ⟨[], false⟩ :=
  (set_atomic 4 (some ⟨0, 8, 0⟩) (CoArg.pure 0) ⟨Buffer.detach, some 1⟩ true
    ⟨List.replicate 8 0, true⟩).1 (.detachedBufferError "set") rfl

/-- C9: constructing a DataView at `offset = buffer.byteLength` with no
explicit length succeeds and yields a view of byte length 0; on that view
every get or set with `sizeof(T) > 0` (on an attached buffer, with a
successfully coerced offset) fails with the out-of-bounds RangeError. -/
theorem zeroLength_view (b0 : Buffer) (bid : Nat) :
    dataViewConstructor true true bid (CoArg.pure b0.size) none b0
      = (b0, .ok ⟨b0.size, 0, bid⟩) ∧
    (∀ (sizeT off : Nat) (v : Int) (le : Bool) (b : Buffer), 0 < sizeT →
      b.attached = true →
      (dataViewPrototypeGet sizeT (some ⟨b0.size, 0, bid⟩) (CoArg.pure off)
          le b).2 = .error (.outOfBoundsError "get") ∧
      (dataViewPrototypeSet sizeT (some ⟨b0.size, 0, bid⟩) (CoArg.pure off)
          (CoVal.pure v) le b).2 = .error (.outOfBoundsError "set")) := by
  constructor
  · simp [dataViewConstructor, CoArg.pure]
  · intro sizeT off v le b hsz hatt
    have hb : off + sizeT > 0 := by omega
    constructor <;> simp [dataViewPrototypeGet, dataViewPrototypeSet,
      CoArg.pure, CoVal.pure, hatt, hb]

/-- C9 witness: the zero-length-view theorem on a concrete 3-byte buffer,
with a concrete get on the resulting view. -/
theorem zeroLength_view_witness :
    dataViewConstructor true true 7 (CoArg.pure 3) none ⟨[1, 2, 3], true⟩
      = (⟨[1, 2, 3], true⟩, .ok ⟨3, 0, 7⟩) ∧
    (dataViewPrototypeGet 2 (some ⟨3, 0, 7⟩) (CoArg.pure 0) false
        ⟨[9], true⟩).2 = .error (.outOfBoundsError "get") :=
  ⟨(zeroLength_view ⟨[1, 2, 3], true⟩ 7).1,
    ((zeroLength_view ⟨[1, 2, 3], true⟩ 7).2 2 0 0 false ⟨[9], true⟩
      (by decide) rfl).1⟩

/-- C10: the buffer, byteLength and byteOffset accessors never consult the
buffer: on any DataView receiver they succeed and return the value fixed at
construction, for every buffer state (detached included) — indeed their
result is independent of the buffer state; on a non-DataView receiver each
fails with the ReceiverTypeError naming that accessor. -/
theorem accessors_ignore_attached :
    (∀ (view : JSDataView) (b : Buffer),
      dataViewPrototypeBuffer (some view) b = .ok view.bufferRef ∧
      dataViewPrototypeByteLength (some view) b = .ok view.byteLength ∧
      dataViewPrototypeByteOffset (some view) b = .ok view.byteOffset) ∧
    (∀ (view : JSDataView) (b b' : Buffer),
      dataViewPrototypeBuffer (some view) b
          = dataViewPrototypeBuffer (some view) b' ∧
      dataViewPrototypeByteLength (some view) b
          = dataViewPrototypeByteLength (some view) b' ∧
      dataViewPrototypeByteOffset (some view) b
          = dataViewPrototypeByteOffset (some view) b') ∧
    (∀ b : Buffer,
      dataViewPrototypeBuffer none b
          = .error (.receiverTypeError "DataView.prototype.buffer") ∧
      dataViewPrototypeByteLength none b
          = .error (.receiverTypeError "DataView.prototype.byteLength") ∧
      dataViewPrototypeByteOffset none b
          = .error (.receiverTypeError "DataView.prototype.byteOffset")) :=
  ⟨fun _ _ => ⟨rfl, rfl, rfl⟩, fun _ _ _ => ⟨rfl, rfl, rfl⟩,
    fun _ => ⟨rfl, rfl, rfl⟩⟩

end Hermes
